import Mathlib

/-!
Verification development for the itoi-daily scraper pipeline
(`src/scraper.py`).  The pipeline is embedded shallowly: the decision
logic of the script (extraction fallback, normalization, fingerprinting,
archive dedup, feed windowing, XML post-processing, JSON persistence)
is translated into executable Lean definitions over `String` / `List Char`,
while the external collaborators (headless browser fetch, the HTML query
engine, the translation API, the generic feed serializer, the file system)
appear as explicit inputs or, where the spec is the only description,
as definitions modelled from the spec.
-/

set_option maxRecDepth 1000000

namespace Itoi

/-! ## Python-style string primitives

`str` values are modelled as Lean `String`s (sequences of unicode code
points, matching Python's `len`/slicing semantics).  The helpers below
reproduce the Python string operations used by `scraper.py`.
-/

/-- Unicode white space, as recognised by Python's `str.strip` and `\s`. -/
def isPyWs (c : Char) : Bool :=
  c = ' ' || c = '\t' || c = '\n' || c = '\x0b' || c = '\x0c' || c = '\r' ||
  c = '\x1c' || c = '\x1d' || c = '\x1e' || c = '\x1f' || c = '\x85' ||
  c = '\xa0' || c = ' ' ||
  (0x2000 ≤ c.toNat && c.toNat ≤ 0x200a) ||
  c = ' ' || c = ' ' || c = ' ' || c = ' ' || c = '　'

/-- Drop trailing characters satisfying `p` (helper for `strip`). -/
def dropTrailWhile (p : Char → Bool) (cs : List Char) : List Char :=
  (cs.reverse.dropWhile p).reverse

/-- Python `str.strip()` on a character list. -/
def pyStripL (cs : List Char) : List Char :=
  dropTrailWhile isPyWs (cs.dropWhile isPyWs)

/-- Python `str.strip()`. -/
def pyStrip (s : String) : String := String.mk (pyStripL s.data)

/-- Does `pat` occur at the head of `cs`? -/
def hasPfx : List Char → List Char → Bool
  | [], _ => true
  | _ :: _, [] => false
  | p :: ps, c :: cs => p = c && hasPfx ps cs

/-- Scan for the leftmost occurrence of `pat`, carrying the current index
(tail recursive). -/
def findSubAux (pat : List Char) : Nat → List Char → Option Nat
  | _, [] => none
  | i, c :: cs => if hasPfx pat (c :: cs) then some i else findSubAux pat (i + 1) cs

/-- Index of the leftmost occurrence of `pat` in `cs` (Python `str.find`). -/
def findSubL (pat cs : List Char) : Option Nat :=
  if pat.isEmpty then some 0 else findSubAux pat 0 cs

/-- Python `sub in s` (substring containment). -/
def containsSub (s pat : String) : Bool := (findSubL pat.data s.data).isSome

/-- Python `s.find(pat, start)`. -/
def pyFindFrom (s pat : String) (start : Nat) : Option Nat :=
  (findSubL pat.data (s.data.drop start)).map (· + start)

/-- Python `s[a:b]` (indices clamped, code-point based). -/
def pySlice (s : String) (a b : Nat) : String :=
  String.mk ((s.data.drop a).take (b - a))

/-- Python `s[a:]`. -/
def pySliceFrom (s : String) (a : Nat) : String := String.mk (s.data.drop a)

/-- Python `s.replace(old, new, 1)`: replace the leftmost occurrence only. -/
def pyReplaceOnce (s old new : String) : String :=
  match findSubL old.data s.data with
  | none => s
  | some i =>
    String.mk (s.data.take i ++ new.data ++ s.data.drop (i + old.data.length))

/-- Python `s.split('\n\n')`: split on each non-overlapping, leftmost
occurrence of a blank line separator. -/
def splitNN : List Char → List (List Char)
  | [] => [[]]
  | '\n' :: '\n' :: rest => [] :: splitNN rest
  | c :: rest =>
    match splitNN rest with
    | g :: gs => (c :: g) :: gs
    | [] => [[c]]

/-- Python `s.split('\n')` (single-character separator). -/
def splitCh (sep : Char) : List Char → List (List Char)
  | [] => [[]]
  | c :: rest =>
    if c = sep then [] :: splitCh sep rest
    else
      match splitCh sep rest with
      | g :: gs => (c :: g) :: gs
      | [] => [[c]]

/-- Python `sep.join(parts)`. -/
def joinSep (sep : String) : List String → String
  | [] => ""
  | [p] => p
  | p :: ps => p ++ sep ++ joinSep sep ps

/-- Python truthiness of an `Optional[str]`: `None` and `''` are falsy. -/
def pyFalsy (o : Option String) : Bool := (o.getD "").data.isEmpty

/-- Python `a or b` for an optional string with a string default. -/
def pyOrS (o : Option String) (dflt : String) : String :=
  match o with
  | some s => if s.data.isEmpty then dflt else s
  | none => dflt

/-- Tail-recursive character-list equality (kernel-friendly on long texts). -/
def eqChars : List Char → List Char → Bool
  | [], [] => true
  | a :: as, b :: bs => a = b && eqChars as bs
  | _, _ => false

/-- Tail-recursive string equality test. -/
def eqStr (s t : String) : Bool := eqChars s.data t.data

/-- Tail-recursive character count (kernel-friendly on long texts). -/
def lenChars : Nat → List Char → Nat
  | n, [] => n
  | n, _ :: cs => lenChars (n + 1) cs

/-- Tail-recursive string length. -/
def lenStr (s : String) : Nat := lenChars 0 s.data

/-- UTF-8 encoding of a single scalar value (Python `str.encode()`). -/
def utf8EncodeCharNat (c : Char) : List Nat :=
  let n := c.toNat
  if n < 0x80 then [n]
  else if n < 0x800 then
    [0xc0 ||| (n >>> 6), 0x80 ||| (n &&& 0x3f)]
  else if n < 0x10000 then
    [0xe0 ||| (n >>> 12), 0x80 ||| ((n >>> 6) &&& 0x3f), 0x80 ||| (n &&& 0x3f)]
  else
    [0xf0 ||| (n >>> 18), 0x80 ||| ((n >>> 12) &&& 0x3f),
     0x80 ||| ((n >>> 6) &&& 0x3f), 0x80 ||| (n &&& 0x3f)]

/-- UTF-8 bytes of a string. -/
def utf8Bytes (s : String) : List Nat :=
  s.data.foldr (fun c acc => utf8EncodeCharNat c ++ acc) []

/-- The 64 MD5 round constants `K[i] = floor(2^32 * |sin(i+1)|)`. -/
def md5K : List Nat :=
  [0xd76aa478, 0xe8c7b756, 0x242070db, 0xc1bdceee,
   0xf57c0faf, 0x4787c62a, 0xa8304613, 0xfd469501,
   0x698098d8, 0x8b44f7af, 0xffff5bb1, 0x895cd7be,
   0x6b901122, 0xfd987193, 0xa679438e, 0x49b40821,
   0xf61e2562, 0xc040b340, 0x265e5a51, 0xe9b6c7aa,
   0xd62f105d, 0x02441453, 0xd8a1e681, 0xe7d3fbc8,
   0x21e1cde6, 0xc33707d6, 0xf4d50d87, 0x455a14ed,
   0xa9e3e905, 0xfcefa3f8, 0x676f02d9, 0x8d2a4c8a,
   0xfffa3942, 0x8771f681, 0x6d9d6122, 0xfde5380c,
   0xa4beea44, 0x4bdecfa9, 0xf6bb4b60, 0xbebfbc70,
   0x289b7ec6, 0xeaa127fa, 0xd4ef3085, 0x04881d05,
   0xd9d4d039, 0xe6db99e5, 0x1fa27cf8, 0xc4ac5665,
   0xf4292244, 0x432aff97, 0xab9423a7, 0xfc93a039,
   0x655b59c3, 0x8f0ccc92, 0xffeff47d, 0x85845dd1,
   0x6fa87e4f, 0xfe2ce6e0, 0xa3014314, 0x4e0811a1,
   0xf7537e82, 0xbd3af235, 0x2ad7d2bb, 0xeb86d391]

/-- The 64 MD5 per-round left-rotation amounts. -/
def md5S : List Nat :=
  [7, 12, 17, 22, 7, 12, 17, 22, 7, 12, 17, 22, 7, 12, 17, 22,
   5, 9, 14, 20, 5, 9, 14, 20, 5, 9, 14, 20, 5, 9, 14, 20,
   4, 11, 16, 23, 4, 11, 16, 23, 4, 11, 16, 23, 4, 11, 16, 23,
   6, 10, 15, 21, 6, 10, 15, 21, 6, 10, 15, 21, 6, 10, 15, 21]

/-- 32-bit left rotation of `x < 2^32` by `s ≤ 32` bits. -/
def rotl32 (x s : Nat) : Nat := ((x <<< s) % 2 ^ 32) + (x >>> (32 - s))

/-- Bitwise complement within 32 bits (valid for `x < 2^32`). -/
def not32 (x : Nat) : Nat := 0xffffffff - x

/-- MD5 padding: append `0x80`, zero bytes to 56 mod 64, then the
little-endian 64-bit bit length. -/
def md5Pad (msg : List Nat) : List Nat :=
  let lenBits := (msg.length * 8) % 2 ^ 64
  msg ++ 0x80 :: List.replicate ((56 + 64 - (msg.length + 1) % 64) % 64) 0 ++
    [lenBits % 256, lenBits / 256 % 256, lenBits / 256 ^ 2 % 256,
     lenBits / 256 ^ 3 % 256, lenBits / 256 ^ 4 % 256, lenBits / 256 ^ 5 % 256,
     lenBits / 256 ^ 6 % 256, lenBits / 256 ^ 7 % 256]

/-- Split a byte list into 64-byte chunks (fuel-based; `fuel ≥ length` is
always supplied). -/
def chunks64 : Nat → List Nat → List (List Nat)
  | 0, _ => []
  | _, [] => []
  | fuel + 1, bs => bs.take 64 :: chunks64 fuel (bs.drop 64)

/-- Little-endian 32-bit word from 4 bytes. -/
def leWord (b0 b1 b2 b3 : Nat) : Nat := b0 + 256 * (b1 + 256 * (b2 + 256 * b3))

/-- Message word `M[g]` of a 64-byte chunk. -/
def md5M (chunk : List Nat) (g : Nat) : Nat :=
  leWord (chunk.getD (4 * g) 0) (chunk.getD (4 * g + 1) 0)
    (chunk.getD (4 * g + 2) 0) (chunk.getD (4 * g + 3) 0)

/-- MD5 working state (four 32-bit words). -/
structure MD5State where
  a : Nat
  b : Nat
  c : Nat
  d : Nat
deriving DecidableEq

/-- One MD5 round (round index `i`, message accessor `M`). -/
def md5Round (chunk : List Nat) (st : MD5State) (i : Nat) : MD5State :=
  let f :=
    if i < 16 then (st.b &&& st.c) ||| (not32 st.b &&& st.d)
    else if i < 32 then (st.d &&& st.b) ||| (not32 st.d &&& st.c)
    else if i < 48 then st.b ^^^ st.c ^^^ st.d
    else st.c ^^^ (st.b ||| not32 st.d)
  let g :=
    if i < 16 then i
    else if i < 32 then (5 * i + 1) % 16
    else if i < 48 then (3 * i + 5) % 16
    else (7 * i) % 16
  let f := (f + st.a + md5K.getD i 0 + md5M chunk g) % 2 ^ 32
  { a := st.d, b := (st.b + rotl32 f (md5S.getD i 0)) % 2 ^ 32, c := st.b, d := st.c }

/-- Process one 64-byte chunk. -/
def md5Chunk (st : MD5State) (chunk : List Nat) : MD5State :=
  let r := (List.range 64).foldl (md5Round chunk) st
  { a := (st.a + r.a) % 2 ^ 32, b := (st.b + r.b) % 2 ^ 32,
    c := (st.c + r.c) % 2 ^ 32, d := (st.d + r.d) % 2 ^ 32 }

/-- Little-endian bytes of a 32-bit word. -/
def leBytes4 (w : Nat) : List Nat :=
  [w % 256, w / 256 % 256, w / 65536 % 256, w / 16777216 % 256]

/-- The 16 digest bytes of MD5 over a byte message. -/
def md5Digest (msg : List Nat) : List Nat :=
  let padded := md5Pad msg
  let st := (chunks64 padded.length padded).foldl md5Chunk
    ⟨0x67452301, 0xefcdab89, 0x98badcfe, 0x10325476⟩
  leBytes4 st.a ++ leBytes4 st.b ++ leBytes4 st.c ++ leBytes4 st.d

/-- Lowercase hexadecimal digits. -/
def hexChars : List Char := "0123456789abcdef".data

/-- Hex digit for a value `< 16`. -/
def hexDigit (n : Nat) : Char := hexChars.getD n '0'

/-- Two hex characters of one byte. -/
def byteHex (b : Nat) : List Char := [hexDigit (b / 16 % 16), hexDigit (b % 16)]

/-- Hex string of a byte list (`hexdigest()`). -/
def hexOfBytes (bs : List Nat) : List Char :=
  bs.foldr (fun b acc => byteHex b ++ acc) []

/-- `hashlib.md5(bytes).hexdigest()`. -/
def md5Hex (msg : List Nat) : String := String.mk (hexOfBytes (md5Digest msg))

/-- The content fingerprint of a canonical body
(line 118: `hashlib.md5(body.encode()).hexdigest()[:12]`). -/
def fingerprint (body : String) : String :=
  String.mk ((md5Hex (utf8Bytes body)).data.take 12)

/-! ## Extraction (`scrape_essay`, lines 32–126)

The browser fetch and the HTML query engine are external collaborators;
a parsed snapshot is therefore modelled as the results of the fixed
BeautifulSoup queries that `scrape_essay` performs:
`select_one("div.darling-title h2/h3")`, `select_one("div.darling-text")`
(with its `<p>` descendants), the `x-data` attribute of `div.darling`,
and `find_all(['div','section','article'])` (each with its text, its
`<p>` texts and its first `h1/h2/h3`).  All decision logic downstream of
those queries is translated from the source.
-/

/-- The `div.darling-text` container: stripped texts of its `<p>`
descendants (in document order, one entry per element) and its own
`get_text(strip=True)`. -/
structure DarlingText where
  pTexts : List String
  fullText : String
deriving DecidableEq

/-- One structural container from `soup.find_all(['div','section','article'])`:
its `get_text()`, the stripped texts of its `<p>` descendants, and the
stripped text of its first `h1`/`h2`/`h3` (if such an element exists). -/
structure HtmlSection where
  text : String
  pTexts : List String
  heading : Option String
deriving DecidableEq

/-- A rendered page snapshot, as seen through the queries of `scrape_essay`.
`darlingTitleH2`/`darlingTitleH3` are the stripped texts of
`div.darling-title h2`/`h3` when those elements exist; `darlingXData` is
the `x-data` attribute of `div.darling` when that div exists and has the
attribute. -/
structure Soup where
  darlingTitleH2 : Option String
  darlingTitleH3 : Option String
  darlingText : Option DarlingText
  darlingXData : Option String
  sections : List HtmlSection
deriving DecidableEq

/-- Backtick character (used by the `x-data` template pattern). -/
def btick : Char := Char.ofNat 96

/-- Capture of the lazy group in ```darlingTitle:\s*`(.*?)` ```: the shortest
run of non-newline characters up to a closing backtick. -/
def captureTill : List Char → Option (List Char)
  | [] => none
  | c :: rest =>
    if c = btick then some []
    else if c = '\n' then none
    else (captureTill rest).map (c :: ·)

/-- Attempt the pattern ```darlingTitle:\s*`(.*?)` ``` at the head of `cs`. -/
def matchXDataAt (cs : List Char) : Option (List Char) :=
  if hasPfx "darlingTitle:".data cs then
    let rest := (cs.drop 13).dropWhile isPyWs
    match rest with
    | c :: rest2 => if c = btick then captureTill rest2 else none
    | [] => none
  else none

/-- Leftmost match of the `x-data` title pattern
(line 61: `re.search(r"darlingTitle:\s*` ... `", ...)`). -/
def xDataSearch : List Char → Option (List Char)
  | [] => none
  | c :: cs =>
    match matchXDataAt (c :: cs) with
    | some m => some m
    | none => xDataSearch cs

/-- Title from the `x-data` fallback (lines 58–63). -/
def xDataTitle (s : Soup) : Option String :=
  match s.darlingXData with
  | some xd => (xDataSearch xd.data).map String.mk
  | none => none

/-- Title after strategy 1 (lines 55–63): the `h2` text when the element
exists with non-empty stripped text, otherwise the `x-data` fallback. -/
def titleStrat (s : Soup) : Option String :=
  match s.darlingTitleH2 with
  | some t => if t.data.isEmpty then xDataTitle s else some t
  | none => xDataTitle s

/-- Author (lines 65–66): the `h3` text when the element exists with
non-empty stripped text. -/
def authorStrat (s : Soup) : Option String :=
  match s.darlingTitleH3 with
  | some a => if a.data.isEmpty then none else some a
  | none => none

/-- Body via strategy 1 (targeted selector, lines 68–74): join the
non-empty paragraph texts of `div.darling-text` with blank lines, or the
container's full text when it has no `<p>` descendants. -/
def strat1Body (s : Soup) : Option String :=
  match s.darlingText with
  | none => none
  | some el =>
    if el.pTexts.isEmpty then some el.fullText
    else some (joinSep "\n\n" (el.pTexts.filter (fun t => !t.data.isEmpty)))

/-- The author-name marker of the heuristic strategy (line 80). -/
def authorMarker : String := "糸井重里"

/-- Strategy 2 (heuristic section scan, lines 76–87): first container whose
text contains the author marker with length over 500 and which has `<p>`
descendants; returns the joined body and the possibly-updated title.
A qualifying container without `<p>` descendants is skipped (the loop
only breaks inside `if paragraphs:`). -/
def strat2Loop (title : Option String) : List HtmlSection → Option String × Option String
  | [] => (none, title)
  | sec :: rest =>
    if containsSub sec.text authorMarker && decide (sec.text.length > 500) then
      if sec.pTexts.isEmpty then strat2Loop title rest
      else
        let body := joinSep "\n\n" (sec.pTexts.filter (fun t => !t.data.isEmpty))
        let title' :=
          match sec.heading with
          | some h => if pyFalsy title then some h else title
          | none => title
        (some body, title')
    else strat2Loop title rest

/-- The raw extraction result (body, title) after both strategies
(lines 46–87): strategy 2 runs only when strategy 1 produced a falsy body. -/
def extractRaw (s : Soup) : Option String × Option String :=
  if pyFalsy (strat1Body s) then strat2Loop (titleStrat s) s.sections
  else (strat1Body s, titleStrat s)

/-! ### Normalization (lines 93–115) -/

/-- The footer marker phrase skipped during cleaning (line 103). -/
def footerMarker : String := "ほぼ日の更新時間"

/-- Clean one paragraph (lines 98–106): drop lines containing the footer
marker, re-join with single newlines, strip. -/
def cleanPara (p : String) : String :=
  pyStrip (joinSep "\n"
    (((splitCh '\n' p.data).map String.mk).filter
      (fun line => !containsSub line footerMarker)))

/-- The cleaning loop (lines 95–114): clean each paragraph, drop those that
are empty after cleaning, and drop exact duplicates of earlier cleaned
paragraphs (`seen_paragraphs`). -/
def dedupLoop (seen acc : List String) : List String → List String
  | [] => acc.reverse
  | p :: ps =>
    let q := cleanPara p
    if q.data.isEmpty then dedupLoop seen acc ps
    else if q ∈ seen then dedupLoop seen acc ps
    else dedupLoop (q :: seen) (q :: acc) ps

/-- The cleaned paragraph sequence of a raw body. -/
def cleanedParas (body : String) : List String :=
  dedupLoop [] [] ((splitNN body.data).map String.mk)

/-- The canonical body (line 115): cleaned paragraphs re-joined with blank
lines and stripped. -/
def cleanBody (body : String) : String :=
  pyStrip (joinSep "\n\n" (cleanedParas body))

/-! ### The scraped record -/

/-- The record returned by `scrape_essay` (lines 120–126). -/
structure Essay where
  title : String
  author : String
  body : String
  date : String
  hash : String
deriving DecidableEq

/-- Default author (line 122). -/
def defaultAuthor : String := "糸井重里"

/-- Default title (line 121): fixed label plus the formatted current date,
which is an external clock input. -/
def defaultTitle (dateStr : String) : String := "今日のダーリン - " ++ dateStr

/-- `scrape_essay` from the parsed snapshot on (lines 44–126).  `dateStr`
and `nowIso` stand for the two `datetime.now()` reads (title date format
and UTC ISO timestamp).  Returns `none` exactly on the
`if not body or len(body) < 200` abort (lines 89–91). -/
def scrape_essay (s : Soup) (dateStr nowIso : String) : Option Essay :=
  if pyFalsy (extractRaw s).1 || decide (((extractRaw s).1.getD "").length < 200) then
    none
  else
    some { title := pyOrS (extractRaw s).2 (defaultTitle dateStr)
           author := pyOrS (authorStrat s) defaultAuthor
           body := cleanBody ((extractRaw s).1.getD "")
           date := nowIso
           hash := fingerprint (cleanBody ((extractRaw s).1.getD "")) }

/-! ## Archived records

`main` (lines 376–381) extends the scraped record with the four
translation fields before persisting it; archived records therefore carry
the nine string fields below, in dict insertion order. -/

/-- A persisted archive record. -/
structure ArchivedEssay where
  title : String
  author : String
  body : String
  date : String
  hash : String
  translation : String
  summary : String
  translated_title : String
  translated_author : String
deriving DecidableEq

/-! ## Feed generation (`generate_atom`, lines 220–343)

Lines 222–254 drive an external feed-generation library; the entry data
fed to it (lines 233–251) and the 30-record window (`archive[:30]`,
line 232) are translated from the source, while the library's XML
serialization is modelled from the spec (§4.4, §6).  Lines 256–343 (the
structural post-processor: namespace injection, title type annotation,
header reordering, per-entry thumbnail insertion) are translated from the
source, string surgery included. -/

/-- Configuration constants (lines 24–29). -/
def feedSelfUrl : String := "https://adtheriault.github.io/itoi-daily/feed.xml"

/-- The alternate link target (`ESSAY_URL`). -/
def essayUrl : String := "https://www.1101.com/"

/-- `DARLING_IMAGE_URL` (line 28). -/
def darlingImageUrl : String := "https://www.1101.com/home/2025/images/home/darling.png"

/-- `HOBONICHI_ICON_URL` (line 29). -/
def hobonichiIconUrl : String := "https://adtheriault.github.io/itoi-daily/hobonichi%20logo.png"

/-- The centered header image prepended to each entry's content (line 246). -/
def imageHtml : String :=
  "<div style=\"text-align: center; margin-bottom: 20px;\"><img src=\"" ++
  darlingImageUrl ++
  "\" alt=\"Hobonichi Darling\" style=\"max-width: 300px; height: auto;\"/></div>"

/-- One feed entry, as populated by lines 233–251. -/
structure FeedEntry where
  entryId : String
  title : String
  authorName : String
  link : String
  summary : String
  content : String
  published : String
  updated : String
deriving DecidableEq

/-- Build one entry from an archived record (lines 233–251).  The
`dict.get` fallbacks for `translated_title` / `translated_author` /
`summary` never fire for records produced by this pipeline, which always
carries all nine fields. -/
def mkEntry (e : ArchivedEssay) : FeedEntry :=
  { entryId := "https://adtheriault.github.io/itoi-daily/#" ++ e.hash
    title := e.translated_title
    authorName := e.translated_author
    link := essayUrl
    summary := e.summary
    content := imageHtml ++ e.translation
    published := e.date
    updated := e.date }

/-- The entry-accumulation loop (line 232: `for entry_data in archive[:30]`,
each iteration appending one entry to the feed object). -/
def addEntriesLoop (acc : List FeedEntry) : List ArchivedEssay → List FeedEntry
  | [] => acc
  | e :: es => addEntriesLoop (acc ++ [mkEntry e]) es

/-- The entry sequence of the built feed. -/
def generateEntries (archive : List ArchivedEssay) : List FeedEntry :=
  addEntriesLoop [] (archive.take 30)

/-- XML text-node escaping (`&`, `<`, `>`), as the serializer applies to
every text field. -/
def xmlEscape (s : String) : String :=
  String.mk (s.data.foldr
    (fun c acc =>
      if c = '&' then "&amp;".data ++ acc
      else if c = '<' then "&lt;".data ++ acc
      else if c = '>' then "&gt;".data ++ acc
      else c :: acc) [])

/-- Modelled from the spec: the generic feed serializer (an external
feed-generation library, not part of `src/`) renders the feed-level
metadata of §4.4 followed by the entries; each entry carries the §6
element set in the §6 order (identifier, title, author, link, summary,
full content, published timestamp, updated timestamp), with XML-escaped
text nodes.  `updated` is the serializer's feed-level timestamp input. -/
def renderEntry (e : FeedEntry) : String :=
  "  <entry>\n" ++
  "    <id>" ++ xmlEscape e.entryId ++ "</id>\n" ++
  "    <title>" ++ xmlEscape e.title ++ "</title>\n" ++
  "    <author><name>" ++ xmlEscape e.authorName ++ "</name></author>\n" ++
  "    <link href=\"" ++ e.link ++ "\" rel=\"alternate\" type=\"text/html\"/>\n" ++
  "    <summary>" ++ xmlEscape e.summary ++ "</summary>\n" ++
  "    <content type=\"html\">" ++ xmlEscape e.content ++ "</content>\n" ++
  "    <published>" ++ xmlEscape e.published ++ "</published>\n" ++
  "    <updated>" ++ xmlEscape e.updated ++ "</updated>\n" ++
  "  </entry>\n"

/-- Modelled from the spec: the feed-level header rendered by the generic
serializer from the fixed configuration of lines 222–229. -/
def atomHeader (updated : String) : String :=
  "<?xml version='1.0' encoding='UTF-8'?>\n" ++
  "<feed xmlns=\"http://www.w3.org/2005/Atom\" xml:lang=\"en\">\n" ++
  "  <id>" ++ feedSelfUrl ++ "</id>\n" ++
  "  <title>Today's Darling</title>\n" ++
  "  <updated>" ++ updated ++ "</updated>\n" ++
  "  <subtitle>Daily essays by Shigesato Itoi from 1101.com, translated to English.</subtitle>\n" ++
  "  <link href=\"" ++ essayUrl ++ "\" rel=\"alternate\" type=\"text/html\"/>\n" ++
  "  <link href=\"" ++ feedSelfUrl ++ "\" rel=\"self\" type=\"application/atom+xml\"/>\n" ++
  "  <icon>" ++ hobonichiIconUrl ++ "</icon>\n"

/-- Modelled from the spec: the serialized generic feed document
(`fg.atom_file(...)`, line 254) — header, entries in order, closing tag. -/
def atomSerialize (archive : List ArchivedEssay) (updated : String) : String :=
  atomHeader updated ++
  ((generateEntries archive).map renderEntry).foldl (· ++ ·) "" ++
  "</feed>\n"

/-! ### Structural post-processing (lines 256–343), from the source -/

/-- `'<feed xmlns="http://www.w3.org/2005/Atom"'` (the replace target of
lines 262–272). -/
def feedOpenAtom : String := "<feed xmlns=\"http://www.w3.org/2005/Atom\""

/-- The replacement carrying both extra namespaces (lines 263–265). -/
def feedOpenBoth : String :=
  "<feed xmlns=\"http://www.w3.org/2005/Atom\" xmlns:media=\"http://search.yahoo.com/mrss/\" xmlns:thr=\"http://purl.org/syndication/thread/1.0\""

/-- The replacement carrying only the `thr` namespace (lines 269–271). -/
def feedOpenThr : String :=
  "<feed xmlns=\"http://www.w3.org/2005/Atom\" xmlns:thr=\"http://purl.org/syndication/thread/1.0\""

/-- Leftmost position of `<entry` or `</feed>` (the lookahead of the
header regex, line 285), from index `i` (tail recursive). -/
def findAnchorAux : Nat → List Char → Option Nat
  | _, [] => none
  | i, c :: cs =>
    if hasPfx "<entry".data (c :: cs) || hasPfx "</feed>".data (c :: cs) then some i
    else findAnchorAux (i + 1) cs

/-- Leftmost position of `<entry` or `</feed>`. -/
def findAnchor (cs : List Char) : Option Nat := findAnchorAux 0 cs

/-- Match length of `<feed[^>]*>.*?(?=<entry|</feed>)` (DOTALL) at the head. -/
def tryFeedAt (cs : List Char) : Option Nat :=
  if hasPfx "<feed".data cs then
    let attrs := (cs.drop 5).takeWhile (· ≠ '>')
    match (cs.drop 5).drop attrs.length with
    | '>' :: rest => (findAnchor rest).map (fun k => 5 + attrs.length + 1 + k)
    | _ => none
  else none

/-- Leftmost span of the header regex, scanning from index `i`
(tail recursive). -/
def searchFeedAux : Nat → List Char → Option (Nat × Nat)
  | _, [] => none
  | i, c :: cs =>
    match tryFeedAt (c :: cs) with
    | some len => some (i, i + len)
    | none => searchFeedAux (i + 1) cs

/-- Leftmost span `(start, stop)` of the header regex (line 285). -/
def searchFeedSec (cs : List Char) : Option (Nat × Nat) := searchFeedAux 0 cs

/-- Lazy single-line content capture up to a closing tag (`.*?</close>`
without DOTALL: a newline before the closing tag fails the attempt). -/
def scanToClose (close : List Char) : List Char → Option (List Char)
  | [] => none
  | c :: cs =>
    if hasPfx close (c :: cs) then some []
    else if c = '\n' then none
    else (scanToClose close cs).map (c :: ·)

/-- Leftmost match text of a literal-delimited element pattern
`<tag>.*?</tag>` (the subtitle/updated/id/icon searches, lines 291–295). -/
def searchElem (openTag close : String) : List Char → Option (List Char)
  | [] => none
  | c :: cs =>
    if hasPfx openTag.data (c :: cs) then
      match scanToClose close.data ((c :: cs).drop openTag.data.length) with
      | some content => some (openTag.data ++ content ++ close.data)
      | none => searchElem openTag close cs
    else searchElem openTag close cs

/-- Leftmost match text of `<title[^>]*>.*?</title>` (line 290). -/
def searchTitleElem : List Char → Option (List Char)
  | [] => none
  | c :: cs =>
    if hasPfx "<title".data (c :: cs) then
      let attrs := ((c :: cs).drop 6).takeWhile (· ≠ '>')
      match ((c :: cs).drop 6).drop attrs.length with
      | '>' :: rest =>
        match scanToClose "</title>".data rest with
        | some content =>
          some ("<title".data ++ attrs ++ '>' :: content ++ "</title>".data)
        | none => searchTitleElem cs
      | _ => searchTitleElem cs
    else searchTitleElem cs

/-- All matches of `<link[^>]*/?>` left to right, non-overlapping
(line 293: `re.findall`).  Fuel-based; fuel `≥ length` always supplied. -/
def linksAux : Nat → List Char → List (List Char)
  | 0, _ => []
  | _, [] => []
  | fuel + 1, c :: cs =>
    if hasPfx "<link".data (c :: cs) then
      let attrs := ((c :: cs).drop 5).takeWhile (· ≠ '>')
      match ((c :: cs).drop 5).drop attrs.length with
      | '>' :: rest => ("<link".data ++ attrs ++ ['>']) :: linksAux fuel rest
      | _ => linksAux fuel cs
    else linksAux fuel cs

/-- An optional header element rendered with two-space indent (the
`new_feed +=` lines 300–316). -/
def hdrLine (o : Option (List Char)) : String :=
  match o with
  | some l => "  " ++ String.mk l ++ "\n"
  | none => ""

/-- The header-reordering stage (lines 282–319): extract the header
elements by pattern match and reassemble them in the fixed order
title, subtitle, updated, alternate link, id, self link, icon, under a
root element carrying all namespaces.  Everything before the matched
header (the XML declaration) is dropped, exactly as
`new_feed + xml_content[feed_match.end():]` does. -/
def reorderHeader (x : String) : String :=
  match searchFeedSec x.data with
  | none => x
  | some (start, stop) =>
    let sec := (x.data.drop start).take (stop - start)
    let links := (linksAux sec.length sec).map String.mk
    let newFeed :=
      "<feed xmlns=\"http://www.w3.org/2005/Atom\" xmlns:media=\"http://search.yahoo.com/mrss/\" xmlns:thr=\"http://purl.org/syndication/thread/1.0\" xml:lang=\"en\">\n" ++
      hdrLine (searchTitleElem sec) ++
      hdrLine (searchElem "<subtitle>" "</subtitle>" sec) ++
      hdrLine (searchElem "<updated>" "</updated>" sec) ++
      ((links.filter (fun l => containsSub l "rel=\"alternate\"")).map
        (fun l => "  " ++ l ++ "\n")).foldl (· ++ ·) "" ++
      hdrLine (searchElem "<id>" "</id>" sec) ++
      ((links.filter (fun l => containsSub l "rel=\"self\"")).map
        (fun l => "  " ++ l ++ "\n")).foldl (· ++ ·) "" ++
      hdrLine (searchElem "<icon>" "</icon>" sec)
    newFeed ++ String.mk (x.data.drop stop)

/-- The thumbnail element (line 327). -/
def thumbTag : String :=
  "<media:thumbnail url=\"" ++ darlingImageUrl ++ "\" width=\"200\" height=\"200\"/>"

/-- Thumbnail insertion for one entry (lines 322–339): locate the entry by
its id pattern, find the next `</published>`, and insert the thumbnail
right after it unless `<media:thumbnail` already occurs within the 1500
characters following the entry id. -/
def insertThumb (x : String) (hash : String) : String :=
  let pat := "<id>https://adtheriault.github.io/itoi-daily/#" ++ hash ++ "</id>"
  if containsSub x pat then
    match findSubL pat.data x.data with
    | some entryStart =>
      match pyFindFrom x "</published>" entryStart with
      | some pubEnd =>
        let ip := pubEnd + "</published>".length
        let checkRange := pySlice x entryStart (entryStart + 1500)
        if !containsSub checkRange "<media:thumbnail" then
          String.mk (x.data.take ip ++ ("\n  " ++ thumbTag).data ++ x.data.drop ip)
        else x
      | none => x
    | none => x
  else x

/-- The structural post-processor (lines 256–343): namespace injection,
title type annotation, header reordering, then per-entry thumbnail
insertion over the archive window. -/
def postProcess (xml : String) (archive : List ArchivedEssay) : String :=
  let x := xml
  let x :=
    if !containsSub x "xmlns:media=" then pyReplaceOnce x feedOpenAtom feedOpenBoth
    else if !containsSub x "xmlns:thr=" then pyReplaceOnce x feedOpenAtom feedOpenThr
    else x
  let x :=
    if !containsSub x "<title type=" then
      pyReplaceOnce x "<title>" "<title type=\"text\">"
    else x
  let x := reorderHeader x
  (archive.take 30).foldl (fun acc e => insertThumb acc e.hash) x

/-- `generate_atom` (lines 220–343): generic serialization of the archive
window followed by structural post-processing. -/
def generateAtom (archive : List ArchivedEssay) (updated : String) : String :=
  postProcess (atomSerialize archive updated) archive

/-! ## The run pipeline (`main`, lines 346–389)

The translation and summarization services are oracles
`translate : text → is-title-mode → text` and `summarize : text → text`;
`mainRun` records which calls were made, the archive that was saved (if
any) and the feed document that was written (if any). -/

/-- Observable outcome of one run. -/
structure RunResult where
  trCalls : List (String × Bool)
  smCalls : List String
  saved : Option (List ArchivedEssay)
  feed : Option String
deriving DecidableEq

/-- The outcome of a run that aborts before any external call or state
change. -/
def noRun : RunResult := ⟨[], [], none, none⟩

/-- Extend the scraped record with the translation fields (lines 377–380). -/
def enrich (essay : Essay) (tt ta tb sm : String) : ArchivedEssay :=
  { title := essay.title, author := essay.author, body := essay.body
    date := essay.date, hash := essay.hash
    translation := tb, summary := sm
    translated_title := tt, translated_author := ta }

/-- The enriched record built by a successful run (lines 363–381). -/
def enrichedOf (essay : Essay) (translate : String → Bool → String)
    (summarize : String → String) : ArchivedEssay :=
  enrich essay (pyStrip (translate essay.title true)) (pyStrip (translate essay.author true))
    (translate essay.body false) (pyStrip (summarize (translate essay.body false)))

/-- `main` (lines 346–389) from the scrape result on: duplicate check
against the archived fingerprints (lines 356–361), translation calls
(lines 363–374), head insertion (line 381), save and feed regeneration
(lines 383–385). -/
def mainRun (scraped : Option Essay) (archive : List ArchivedEssay)
    (translate : String → Bool → String) (summarize : String → String)
    (feedNow : String) : RunResult :=
  match scraped with
  | none => noRun
  | some essay =>
    if archive.any (fun e => e.hash == essay.hash) then noRun
    else
      { trCalls := [(essay.title, true), (essay.author, true), (essay.body, false)]
        smCalls := [translate essay.body false]
        saved := some (enrichedOf essay translate summarize :: archive)
        feed := some (generateAtom (enrichedOf essay translate summarize :: archive) feedNow) }


/-! ## Persistence (`load_archive` / `save_archive`, lines 205–217)

The file system is the external collaborator; the modelled artifact is
the serialized text: `json.dump(archive, f, ensure_ascii=False, indent=2)`
on save, `json.load` (restricted to the archive grammar: arrays of flat
objects with string members, the only documents this pipeline writes) on
load. -/

/-- Opening brace character (written via code point for clarity). -/
def obr : Char := Char.ofNat 123

/-- Closing brace character. -/
def cbr : Char := Char.ofNat 125

/-- JSON string escaping of one character, as `json.dump` with
`ensure_ascii=False` performs it: quote and backslash escaped, control
characters as short escapes or `\u00xy`, everything else verbatim. -/
def escChar (c : Char) : List Char :=
  if c = '"' then ['\\', '"']
  else if c = '\\' then ['\\', '\\']
  else if c.toNat < 32 then
    if c = '\x08' then ['\\', 'b']
    else if c = '\t' then ['\\', 't']
    else if c = '\n' then ['\\', 'n']
    else if c = '\x0c' then ['\\', 'f']
    else if c = '\r' then ['\\', 'r']
    else ['\\', 'u', '0', '0', hexDigit (c.toNat / 16), hexDigit (c.toNat % 16)]
  else [c]

/-- Escaped body of a JSON string literal. -/
def escBody (s : String) : List Char :=
  s.data.foldr (fun c acc => escChar c ++ acc) []

/-- One printed `"key": "value"` pair, continued by `tail`. -/
def encPair (k v : String) (tail : List Char) : List Char :=
  '"' :: (escBody k ++ '"' :: ':' :: ' ' :: '"' :: (escBody v ++ '"' :: tail))

/-- The inside of a printed record object (after the opening brace): the
nine fields in dict insertion order, keys indented four spaces
(`json.dump(..., indent=2)` at nesting depth two). -/
def recInner (e : ArchivedEssay) (tail : List Char) : List Char :=
  '\n' :: ' ' :: ' ' :: ' ' :: ' ' ::
  encPair "title" e.title (',' :: '\n' :: ' ' :: ' ' :: ' ' :: ' ' ::
  encPair "author" e.author (',' :: '\n' :: ' ' :: ' ' :: ' ' :: ' ' ::
  encPair "body" e.body (',' :: '\n' :: ' ' :: ' ' :: ' ' :: ' ' ::
  encPair "date" e.date (',' :: '\n' :: ' ' :: ' ' :: ' ' :: ' ' ::
  encPair "hash" e.hash (',' :: '\n' :: ' ' :: ' ' :: ' ' :: ' ' ::
  encPair "translation" e.translation (',' :: '\n' :: ' ' :: ' ' :: ' ' :: ' ' ::
  encPair "summary" e.summary (',' :: '\n' :: ' ' :: ' ' :: ' ' :: ' ' ::
  encPair "translated_title" e.translated_title (',' :: '\n' :: ' ' :: ' ' :: ' ' :: ' ' ::
  encPair "translated_author" e.translated_author ('\n' :: ' ' :: ' ' :: cbr :: tail)))))))))

/-- One printed record object. -/
def encodeRecord (e : ArchivedEssay) (tail : List Char) : List Char :=
  obr :: recInner e tail

/-- The printed record sequence, records separated by `,\n  `. -/
def encItems : List ArchivedEssay → List Char → List Char
  | [], tail => tail
  | [e], tail => encodeRecord e tail
  | e :: es, tail => encodeRecord e (',' :: '\n' :: ' ' :: ' ' :: encItems es tail)

/-- `save_archive` (lines 213–217): the file content written by
`json.dump(archive, f, ensure_ascii=False, indent=2)`.  The file system
is external; the serialized text is the modelled artifact. -/
def saveArchive (archive : List ArchivedEssay) : String :=
  match archive with
  | [] => "[]"
  | _ => String.mk ('[' :: '\n' :: ' ' :: ' ' :: encItems archive ('\n' :: ']' :: []))

/-- JSON whitespace. -/
def isJsonWs (c : Char) : Bool := c = ' ' || c = '\t' || c = '\n' || c = '\r'

/-- Skip JSON whitespace. -/
def skipWs (cs : List Char) : List Char := cs.dropWhile isJsonWs

/-- Does the list start with `c`? -/
def headIs (c : Char) (cs : List Char) : Bool :=
  match cs with
  | [] => false
  | d :: _ => d = c

/-- Value of one hex digit. -/
def hexVal (c : Char) : Nat :=
  if 48 ≤ c.toNat && c.toNat ≤ 57 then c.toNat - 48
  else if 97 ≤ c.toNat && c.toNat ≤ 102 then c.toNat - 87
  else if 65 ≤ c.toNat && c.toNat ≤ 70 then c.toNat - 55
  else 0

/-- The character denoted by a single-character JSON escape. -/
def escapeOf (e : Char) : Option Char :=
  if e = '"' then some '"'
  else if e = '\\' then some '\\'
  else if e = '/' then some '/'
  else if e = 'b' then some '\x08'
  else if e = 'f' then some '\x0c'
  else if e = 'n' then some '\n'
  else if e = 'r' then some '\r'
  else if e = 't' then some '\t'
  else none

/-- Parse the body of a JSON string literal (after the opening quote) up
to its closing quote, handling escapes; raw control characters are
rejected (strict mode, as `json.load`). -/
def parseStrBody : List Char → Option (List Char × List Char)
  | [] => none
  | c :: rest =>
    if c = '"' then some ([], rest)
    else if c = '\\' then
      match rest with
      | [] => none
      | e :: rest1 =>
        if e = 'u' then
          match rest1 with
          | h1 :: h2 :: h3 :: h4 :: rest2 =>
            (parseStrBody rest2).map (fun pr =>
              (Char.ofNat (((hexVal h1 * 16 + hexVal h2) * 16 + hexVal h3) * 16 + hexVal h4) :: pr.1,
               pr.2))
          | _ => none
        else
          match escapeOf e with
          | some d => (parseStrBody rest1).map (fun pr => (d :: pr.1, pr.2))
          | none => none
    else if c.toNat < 32 then none
    else (parseStrBody rest).map (fun pr => (c :: pr.1, pr.2))

/-- Parse a non-empty `"key": "value"` pair sequence up to the closing
brace.  The fuel argument bounds the number of pairs; the top-level
caller supplies the input length, which each pair strictly exceeds.
String-valued members only: the archive grammar (the only values this
pipeline ever writes) has no nested containers, numbers or literals. -/
def parsePairs : Nat → List Char → Option (List (String × String) × List Char)
  | 0, _ => none
  | fuel + 1, cs =>
    match skipWs cs with
    | [] => none
    | c0 :: cs1 =>
      if c0 = '"' then
        match parseStrBody cs1 with
        | none => none
        | some (k, cs2) =>
          match skipWs cs2 with
          | [] => none
          | c1 :: cs3 =>
            if c1 = ':' then
              match skipWs cs3 with
              | [] => none
              | c2 :: cs4 =>
                if c2 = '"' then
                  match parseStrBody cs4 with
                  | none => none
                  | some (v, cs5) =>
                    match skipWs cs5 with
                    | [] => none
                    | c3 :: cs6 =>
                      if c3 = ',' then
                        (parsePairs fuel cs6).map
                          (fun pr => ((String.mk k, String.mk v) :: pr.1, pr.2))
                      else if c3 = cbr then some ([(String.mk k, String.mk v)], cs6)
                      else none
                else none
            else none
      else none

/-- Parse an object's content after its opening brace: the empty object
or a pair sequence. -/
def parseObjTail (fuel : Nat) (cs1 : List Char) :
    Option (List (String × String) × List Char) :=
  if headIs cbr (skipWs cs1) then some ([], (skipWs cs1).drop 1)
  else parsePairs fuel cs1

/-- Parse one JSON object. -/
def parseObject (fuel : Nat) (cs : List Char) :
    Option (List (String × String) × List Char) :=
  match skipWs cs with
  | [] => none
  | c :: cs1 => if c = obr then parseObjTail fuel cs1 else none

/-- Parse a non-empty object sequence up to the closing bracket. -/
def parseItems : Nat → Nat → List Char → Option (List (List (String × String)) × List Char)
  | 0, _, _ => none
  | fuelI + 1, fuelP, cs =>
    match parseObject fuelP cs with
    | none => none
    | some (obj, rest) =>
      match skipWs rest with
      | [] => none
      | c :: rest2 =>
        if c = ',' then
          (parseItems fuelI fuelP rest2).map (fun pr => (obj :: pr.1, pr.2))
        else if c = ']' then some ([obj], rest2)
        else none

/-- Parse a JSON array of objects. -/
def parseArr (fuelI fuelP : Nat) (cs : List Char) :
    Option (List (List (String × String)) × List Char) :=
  match skipWs cs with
  | [] => none
  | c :: cs1 =>
    if c = '[' then
      if headIs ']' (skipWs cs1) then some ([], (skipWs cs1).drop 1)
      else parseItems fuelI fuelP cs1
    else none

/-- First value under a key (Python dict indexing over parsed members). -/
def lookupStr (k : String) : List (String × String) → Option String
  | [] => none
  | (k', v) :: ps => if k' = k then some v else lookupStr k ps

/-- Rebuild an archived record from a parsed object's members. -/
def decodeRecord (ps : List (String × String)) : Option ArchivedEssay := do
  let t ← lookupStr "title" ps
  let a ← lookupStr "author" ps
  let b ← lookupStr "body" ps
  let d ← lookupStr "date" ps
  let h ← lookupStr "hash" ps
  let tr ← lookupStr "translation" ps
  let sm ← lookupStr "summary" ps
  let tt ← lookupStr "translated_title" ps
  let ta ← lookupStr "translated_author" ps
  pure ⟨t, a, b, d, h, tr, sm, tt, ta⟩

/-- `load_archive` (lines 205–210): parse the persisted file content
(`json.load`) back into the record sequence, requiring only whitespace
after the document. -/
def loadArchive (s : String) : Option (List ArchivedEssay) :=
  match parseArr (s.data.length + 1) (s.data.length + 1) s.data with
  | some (objs, rest) =>
    if (skipWs rest).isEmpty then objs.mapM decodeRecord else none
  | none => none

/-- The nine pairs of a printed record, in print order. -/
def pairs9 (e : ArchivedEssay) : List (String × String) :=
  [("title", e.title), ("author", e.author), ("body", e.body), ("date", e.date),
   ("hash", e.hash), ("translation", e.translation), ("summary", e.summary),
   ("translated_title", e.translated_title), ("translated_author", e.translated_author)]

/-- Spec-side first-occurrence dedup (the normalization contract of §4.2):
keep each paragraph the first time it appears, tracking seen paragraphs. -/
def dedupFirstAux (seen : List String) : List String → List String
  | [] => []
  | x :: xs => if x ∈ seen then dedupFirstAux seen xs else x :: dedupFirstAux (x :: seen) xs

/-- Spec-side first-occurrence dedup. -/
def dedupFirst (xs : List String) : List String := dedupFirstAux [] xs

/-- Spec-side list of cleaned, non-empty paragraphs of a raw body, in order. -/
def cleanedNonEmpty (body : String) : List String :=
  (((splitNN body.data).map String.mk).map cleanPara).filter (fun q => !q.data.isEmpty)

/-! ## Concrete sample inputs used by boundary instances and witnesses -/

/-- A snapshot whose targeted selector finds exactly one paragraph `b`. -/
def soupOfBody (b : String) : Soup :=
  { darlingTitleH2 := none, darlingTitleH3 := none
    darlingText := some { pTexts := [b], fullText := b }
    darlingXData := none, sections := [] }

/-- A plain body of `n` characters. -/
def bodyN (n : Nat) : String := String.mk (List.replicate n 'x')

/-- A 200-character paragraph carrying the footer marker, so that cleaning
removes it entirely. -/
def footerPara : String := String.mk (footerMarker.data ++ List.replicate 192 'x')

/-- `soupOfBody` with a title, for the fingerprint-independence witness. -/
def soupTitled (t b : String) : Soup :=
  { darlingTitleH2 := some t, darlingTitleH3 := none
    darlingText := some { pTexts := [b], fullText := b }
    darlingXData := none, sections := [] }

/-- A qualifying heuristic section: author marker, long text, one long
paragraph, and a heading. -/
def goodSection : HtmlSection :=
  { text := String.mk (authorMarker.data ++ List.replicate 500 'x')
    pTexts := [bodyN 200]
    heading := some "H" }

/-- A snapshot where strategy 1 finds nothing and strategy 2 succeeds. -/
def soupFallback : Soup :=
  { darlingTitleH2 := none, darlingTitleH3 := none
    darlingText := none
    darlingXData := none, sections := [goodSection] }

/-- A short archived record (thumbnail lands inside the presence-check
window). -/
def sampleShortA : ArchivedEssay :=
  { title := "t", author := "a", body := "b", date := "2025-01-01T00:00:00+00:00"
    hash := "aaaaaaaaaaaa", translation := "<p>Short.</p>", summary := "A summary."
    translated_title := "T", translated_author := "Shigesato Itoi" }

/-- A second short archived record with a distinct fingerprint. -/
def sampleShortB : ArchivedEssay :=
  { title := "u", author := "a", body := "c", date := "2025-01-02T00:00:00+00:00"
    hash := "cccccccccccc", translation := "<p>Other.</p>", summary := "B summary."
    translated_title := "U", translated_author := "Shigesato Itoi" }

/-- A two-record window of short entries, newest first. -/
def shortWindow : List ArchivedEssay := [sampleShortB, sampleShortA]

/-- An archived record with a 1200-character translation: its serialized
entry spans more than 1500 characters from the id element to the inserted
thumbnail. -/
def longEssayRec : ArchivedEssay :=
  { title := "t", author := "a", body := "b", date := "2025-01-01T00:00:00+00:00"
    hash := "bbbbbbbbbbbb", translation := String.mk (List.replicate 1200 'a')
    summary := "A summary.", translated_title := "T"
    translated_author := "Shigesato Itoi" }

/-- A one-record window whose entry is long. -/
def longWindow : List ArchivedEssay := [longEssayRec]

/-- A fixed serializer timestamp. -/
def feedTs : String := "2025-01-02T00:00:00+00:00"

/-- A sample archived record family with distinct fingerprints. -/
def sampleRec (i : Nat) : ArchivedEssay :=
  { title := "t", author := "a", body := "b", date := "2025-01-01T00:00:00+00:00"
    hash := String.mk (List.replicate i 'h'), translation := "<p>x</p>"
    summary := "s", translated_title := "T", translated_author := "A" }

/-- An archive of 45 records. -/
def arch45 : List ArchivedEssay := (List.range 45).map sampleRec

/-- A record with non-ASCII text, quotes, backslashes and control
characters in its stored fields. -/
def jpRec : ArchivedEssay :=
  { title := "今日のダーリン", author := "糸井重里"
    body := "日本語の本文です。\n\n二段落目、\"引用\"と\\記号。"
    date := "2025-01-01T00:00:00+00:00", hash := "c0e89a293bd3"
    translation := "<p>Japanese essay.</p>", summary := "概要\tです。"
    translated_title := "Darling of the Day", translated_author := "Shigesato Itoi" }

/-! ## Supporting lemmas -/

theorem eqChars_sound : ∀ as bs : List Char, eqChars as bs = true → as = bs
  | [], [], _ => rfl
  | a :: as, b :: bs, h => by
    simp only [eqChars, Bool.and_eq_true, decide_eq_true_eq] at h
    exact h.1 ▸ congrArg (a :: ·) (eqChars_sound as bs h.2)
  | [], _ :: _, h => by simp [eqChars] at h
  | _ :: _, [], h => by simp [eqChars] at h

theorem eqStr_sound {s t : String} (h : eqStr s t = true) : s = t := by
  cases s with
  | mk ds =>
    cases t with
    | mk dt => exact congrArg String.mk (eqChars_sound ds dt h)

theorem lenChars_eq : ∀ (n : Nat) (cs : List Char), lenChars n cs = n + cs.length
  | _, [] => by simp [lenChars]
  | n, _ :: cs => by simp [lenChars, lenChars_eq (n + 1) cs]; omega

theorem lenStr_ne {s t : String} (h : lenStr s ≠ lenStr t) : s ≠ t :=
  fun hst => h (congrArg lenStr hst)

/-! ## Content fingerprint

`scraper.py` line 118: `content_hash = hashlib.md5(body.encode()).hexdigest()[:12]`.
`str.encode()` is UTF-8 encoding; `hashlib.md5` is the standard MD5 digest
(RFC 1321), transcribed here over `Nat` bytes/words with explicit `% 2^32`.
-/


theorem scrape_hash_eq {s : Soup} {d n : String} {r : Essay}
    (h : scrape_essay s d n = some r) : r.hash = fingerprint r.body := by
  unfold scrape_essay at h
  split at h
  · exact absurd h (by simp)
  · simp only [Option.some.injEq] at h
    subst h
    rfl

theorem scrape_eq_none_iff (s : Soup) (d n : String) :
    scrape_essay s d n = none ↔
      (extractRaw s).1 = none ∨ ((extractRaw s).1.getD "").length < 200 := by
  unfold scrape_essay
  split
  next hcond =>
    simp only [true_iff]
    rcases Bool.or_eq_true_iff.mp hcond with h | h
    · unfold pyFalsy at h
      cases hb : (extractRaw s).1 with
      | none => exact Or.inl rfl
      | some b =>
        right
        rw [hb] at h
        simp only [Option.getD_some] at h ⊢
        have : b.data = [] := by simpa using h
        simp [String.length, this]
    · exact Or.inr (of_decide_eq_true h)
  next hcond =>
    simp only [reduceCtorEq, false_iff, not_or, not_lt]
    rw [Bool.or_eq_true_iff] at hcond
    push_neg at hcond
    constructor
    · intro hnone
      apply hcond.1
      rw [hnone]
      rfl
    · by_contra hlt
      exact hcond.2 (decide_eq_true (by omega))

theorem scrape_map_hash (s : Soup) (d n : String) :
    (scrape_essay s d n).map Essay.hash =
      ((scrape_essay s d n).map Essay.body).map fingerprint := by
  cases h : scrape_essay s d n with
  | none => rfl
  | some r =>
    show some r.hash = some (fingerprint r.body)
    rw [scrape_hash_eq h]

theorem hexOfBytes_cons (b : Nat) (bs : List Nat) :
    hexOfBytes (b :: bs) = byteHex b ++ hexOfBytes bs := rfl

theorem hexOfBytes_length : ∀ bs : List Nat, (hexOfBytes bs).length = 2 * bs.length
  | [] => rfl
  | b :: bs => by
    rw [hexOfBytes_cons, List.length_append, hexOfBytes_length bs]
    simp [byteHex]
    ring

theorem md5Digest_length (msg : List Nat) : (md5Digest msg).length = 16 := by
  simp [md5Digest, leBytes4]

theorem fingerprint_length (b : String) : (fingerprint b).length = 12 := by
  show ((md5Hex (utf8Bytes b)).data.take 12).length = 12
  rw [List.length_take]
  have : (md5Hex (utf8Bytes b)).data.length = 32 := by
    show (hexOfBytes (md5Digest (utf8Bytes b))).length = 32
    rw [hexOfBytes_length, md5Digest_length]
  omega

theorem hexDigit_mem (n : Nat) : hexDigit n ∈ hexChars := by
  unfold hexDigit
  by_cases h : n < hexChars.length
  · rw [List.getD_eq_getElem _ _ h]
    exact List.getElem_mem _
  · rw [List.getD_eq_default _ _ (by omega)]
    decide

theorem hexOfBytes_mem : ∀ (bs : List Nat), ∀ c ∈ hexOfBytes bs, c ∈ hexChars
  | [], c, hc => by simp [hexOfBytes] at hc
  | b :: bs, c, hc => by
    rw [hexOfBytes_cons] at hc
    rcases List.mem_append.mp hc with h | h
    · rcases List.mem_cons.mp h with h1 | h1
      · exact h1 ▸ hexDigit_mem _
      · rcases List.mem_cons.mp h1 with h2 | h2
        · exact h2 ▸ hexDigit_mem _
        · simp at h2
    · exact hexOfBytes_mem bs c h

theorem fingerprint_hex (b : String) : ∀ c ∈ (fingerprint b).data, c ∈ hexChars := by
  intro c hc
  exact hexOfBytes_mem _ c (List.mem_of_mem_take hc)

theorem dedupLoop_eq : ∀ (ps seen acc : List String),
    dedupLoop seen acc ps =
      acc.reverse ++ dedupFirstAux seen ((ps.map cleanPara).filter (fun q => !q.data.isEmpty))
  | [], seen, acc => by simp [dedupLoop, dedupFirstAux]
  | p :: ps, seen, acc => by
    by_cases he : (cleanPara p).data.isEmpty
    · rw [show dedupLoop seen acc (p :: ps) = (if (cleanPara p).data.isEmpty then dedupLoop seen acc ps else if cleanPara p ∈ seen then dedupLoop seen acc ps else dedupLoop (cleanPara p :: seen) (cleanPara p :: acc) ps) from rfl]
      rw [if_pos he]
      rw [dedupLoop_eq ps seen acc]
      simp [List.filter_cons, he]
    · rw [show dedupLoop seen acc (p :: ps) = (if (cleanPara p).data.isEmpty then dedupLoop seen acc ps else if cleanPara p ∈ seen then dedupLoop seen acc ps else dedupLoop (cleanPara p :: seen) (cleanPara p :: acc) ps) from rfl]
      rw [if_neg he]
      by_cases hs : cleanPara p ∈ seen
      · rw [if_pos hs, dedupLoop_eq ps seen acc]
        simp only [List.map_cons, List.filter_cons]
        rw [if_pos (by simpa using he)]
        rw [show dedupFirstAux seen (cleanPara p :: (ps.map cleanPara).filter (fun q => !q.data.isEmpty)) = if cleanPara p ∈ seen then dedupFirstAux seen ((ps.map cleanPara).filter (fun q => !q.data.isEmpty)) else cleanPara p :: dedupFirstAux (cleanPara p :: seen) ((ps.map cleanPara).filter (fun q => !q.data.isEmpty)) from rfl]
        rw [if_pos hs]
      · rw [if_neg hs, dedupLoop_eq ps (cleanPara p :: seen) (cleanPara p :: acc)]
        simp only [List.map_cons, List.filter_cons]
        rw [if_pos (by simpa using he)]
        rw [show dedupFirstAux seen (cleanPara p :: (ps.map cleanPara).filter (fun q => !q.data.isEmpty)) = if cleanPara p ∈ seen then dedupFirstAux seen ((ps.map cleanPara).filter (fun q => !q.data.isEmpty)) else cleanPara p :: dedupFirstAux (cleanPara p :: seen) ((ps.map cleanPara).filter (fun q => !q.data.isEmpty)) from rfl]
        rw [if_neg hs]
        simp

theorem dedupFirstAux_sublist : ∀ (xs seen : List String), (dedupFirstAux seen xs).Sublist xs
  | [], _ => List.Sublist.refl _
  | x :: xs, seen => by
    unfold dedupFirstAux
    split
    · exact (dedupFirstAux_sublist xs seen).cons x
    · exact (dedupFirstAux_sublist xs (x :: seen)).cons₂ x

theorem dedupFirstAux_mem (a : String) :
    ∀ (xs seen : List String), a ∈ dedupFirstAux seen xs ↔ a ∈ xs ∧ a ∉ seen
  | [], seen => by simp [dedupFirstAux]
  | x :: xs, seen => by
    unfold dedupFirstAux
    split
    next hx =>
      rw [dedupFirstAux_mem a xs seen]
      constructor
      · exact fun ⟨h1, h2⟩ => ⟨List.mem_cons_of_mem _ h1, h2⟩
      · rintro ⟨h1, h2⟩
        rcases List.mem_cons.mp h1 with rfl | h1
        · exact absurd hx h2
        · exact ⟨h1, h2⟩
    next hx =>
      rw [List.mem_cons, dedupFirstAux_mem a xs (x :: seen)]
      constructor
      · rintro (rfl | ⟨h1, h2⟩)
        · exact ⟨List.mem_cons_self _ _, hx⟩
        · exact ⟨List.mem_cons_of_mem _ h1, fun hs => h2 (List.mem_cons_of_mem _ hs)⟩
      · rintro ⟨h1, h2⟩
        rcases List.mem_cons.mp h1 with rfl | h1
        · exact Or.inl rfl
        · by_cases hax : a = x
          · exact Or.inl hax
          · exact Or.inr ⟨h1, by simp [hax, h2]⟩

theorem dedupFirstAux_nodup : ∀ (xs seen : List String), (dedupFirstAux seen xs).Nodup
  | [], _ => List.nodup_nil
  | x :: xs, seen => by
    unfold dedupFirstAux
    split
    · exact dedupFirstAux_nodup xs seen
    · refine List.Nodup.cons ?_ (dedupFirstAux_nodup xs (x :: seen))
      intro hmem
      exact ((dedupFirstAux_mem x xs (x :: seen)).mp hmem).2 (List.mem_cons_self _ _)

theorem cleanedParas_eq (body : String) :
    cleanedParas body = dedupFirst (cleanedNonEmpty body) := by
  unfold cleanedParas dedupFirst cleanedNonEmpty
  rw [dedupLoop_eq]
  simp [List.map_map]

theorem addEntriesLoop_eq : ∀ (l : List ArchivedEssay) (acc : List FeedEntry),
    addEntriesLoop acc l = acc ++ l.map mkEntry
  | [], acc => by simp [addEntriesLoop]
  | e :: es, acc => by
    rw [show addEntriesLoop acc (e :: es) = addEntriesLoop (acc ++ [mkEntry e]) es from rfl]
    rw [addEntriesLoop_eq es]
    simp

theorem hexVal_hexDigit : ∀ m : Nat, m < 16 → hexVal (hexDigit m) = m := by decide

theorem parseStrBody_quote (rest : List Char) :
    parseStrBody ('"' :: rest) = some ([], rest) := by
  rw [parseStrBody.eq_def]
  dsimp only
  rw [if_pos rfl]

theorem parseStrBody_u (h1 h2 h3 h4 : Char) (rest : List Char) :
    parseStrBody ('\\' :: 'u' :: h1 :: h2 :: h3 :: h4 :: rest) =
      (parseStrBody rest).map (fun pr =>
        (Char.ofNat (((hexVal h1 * 16 + hexVal h2) * 16 + hexVal h3) * 16 + hexVal h4) :: pr.1, pr.2)) := by
  rw [parseStrBody.eq_def]
  dsimp only
  rw [if_neg (by decide : ¬('\\' = '"')), if_pos rfl, if_pos rfl]

theorem parseStrBody_plain (c : Char) (rest : List Char)
    (hq : ¬c = '"') (hb : ¬c = '\\') (hc : ¬c.toNat < 32) :
    parseStrBody (c :: rest) =
      (parseStrBody rest).map (fun pr => (c :: pr.1, pr.2)) := by
  rw [parseStrBody.eq_def]
  dsimp only
  rw [if_neg hq, if_neg hb, if_neg hc]

theorem parseStrBody_esc (e d : Char) (rest : List Char)
    (he : escapeOf e = some d) (hu : ¬e = 'u') :
    parseStrBody ('\\' :: e :: rest) =
      (parseStrBody rest).map (fun pr => (d :: pr.1, pr.2)) := by
  rw [parseStrBody.eq_def]
  dsimp only
  rw [if_neg (by decide : ¬('\\' = '"')), if_pos rfl, if_neg hu, he]

theorem parse_escList : ∀ (ds : List Char) (rest : List Char),
    parseStrBody (ds.foldr (fun c acc => escChar c ++ acc) [] ++ '"' :: rest) =
      some (ds, rest)
  | [], rest => by simpa using parseStrBody_quote rest
  | c :: ds, rest => by
    have IH := parse_escList ds rest
    simp only [List.foldr_cons, List.append_assoc]
    by_cases hq : c = '"'
    · subst hq
      rw [show escChar '"' = ['\\', '"'] from rfl]
      simp only [List.cons_append, List.nil_append]
      rw [parseStrBody_esc '"' '"' _ rfl (by decide), IH]
      rfl
    · by_cases hb : c = '\\'
      · subst hb
        rw [show escChar '\\' = ['\\', '\\'] from rfl]
        simp only [List.cons_append, List.nil_append]
        rw [parseStrBody_esc '\\' '\\' _ rfl (by decide), IH]
        rfl
      · by_cases hc : c.toNat < 32
        · by_cases h08 : c = '\x08'
          · subst h08
            rw [show escChar '\x08' = ['\\', 'b'] from rfl]
            simp only [List.cons_append, List.nil_append]
            rw [parseStrBody_esc 'b' '\x08' _ rfl (by decide), IH]
            rfl
          · by_cases h09 : c = '\t'
            · subst h09
              rw [show escChar '\t' = ['\\', 't'] from rfl]
              simp only [List.cons_append, List.nil_append]
              rw [parseStrBody_esc 't' '\t' _ rfl (by decide), IH]
              rfl
            · by_cases h0a : c = '\n'
              · subst h0a
                rw [show escChar '\n' = ['\\', 'n'] from rfl]
                simp only [List.cons_append, List.nil_append]
                rw [parseStrBody_esc 'n' '\n' _ rfl (by decide), IH]
                rfl
              · by_cases h0c : c = '\x0c'
                · subst h0c
                  rw [show escChar '\x0c' = ['\\', 'f'] from rfl]
                  simp only [List.cons_append, List.nil_append]
                  rw [parseStrBody_esc 'f' '\x0c' _ rfl (by decide), IH]
                  rfl
                · by_cases h0d : c = '\r'
                  · subst h0d
                    rw [show escChar '\r' = ['\\', 'r'] from rfl]
                    simp only [List.cons_append, List.nil_append]
                    rw [parseStrBody_esc 'r' '\r' _ rfl (by decide), IH]
                    rfl
                  · have hsh : escChar c =
                        ['\\', 'u', '0', '0', hexDigit (c.toNat / 16), hexDigit (c.toNat % 16)] := by
                      rw [escChar.eq_def]
                      rw [if_neg hq, if_neg hb, if_pos hc, if_neg h08, if_neg h09, if_neg h0a,
                        if_neg h0c, if_neg h0d]
                    rw [hsh]
                    simp only [List.cons_append, List.nil_append]
                    rw [parseStrBody_u, IH]
                    rw [show (((hexVal '0' * 16 + hexVal '0') * 16 +
                        hexVal (hexDigit (c.toNat / 16))) * 16 +
                        hexVal (hexDigit (c.toNat % 16))) = c.toNat from by
                      rw [hexVal_hexDigit _ (by omega), hexVal_hexDigit _ (by omega)]
                      rw [show hexVal '0' = 0 from by decide]
                      omega]
                    rw [Char.ofNat_toNat]
                    rfl
        · rw [show escChar c = [c] from by
              rw [escChar.eq_def]
              rw [if_neg hq, if_neg hb, if_neg hc]]
          simp only [List.cons_append, List.nil_append]
          rw [parseStrBody_plain c _ hq hb hc, IH]
          rfl

theorem parse_escBody (s : String) (rest : List Char) :
    parseStrBody (escBody s ++ '"' :: rest) = some (s.data, rest) :=
  parse_escList s.data rest

theorem skipWs_cons_ws (c : Char) (cs : List Char) (h : isJsonWs c = true) :
    skipWs (c :: cs) = skipWs cs := by
  simp [skipWs, List.dropWhile_cons, h]

theorem skipWs_cons_not (c : Char) (cs : List Char) (h : isJsonWs c = false) :
    skipWs (c :: cs) = c :: cs := by
  simp [skipWs, List.dropWhile_cons, h]

theorem parsePairs_cons_ws (fuel : Nat) (c : Char) (cs : List Char)
    (h : isJsonWs c = true) :
    parsePairs fuel (c :: cs) = parsePairs fuel cs := by
  cases fuel with
  | zero => rfl
  | succ n => rw [parsePairs, parsePairs, skipWs_cons_ws c cs h]

theorem stringMk_data (s : String) : String.mk s.data = s := by cases s; rfl

/-- One key/value pair of the printed object parses back to the pair. -/
theorem parsePairs_encPair (fuel : Nat) (k v : String) (tail : List Char) :
    parsePairs (fuel + 1) (encPair k v tail) =
      match skipWs tail with
      | [] => none
      | c3 :: cs6 =>
        if c3 = ',' then
          (parsePairs fuel cs6).map (fun pr => ((k, v) :: pr.1, pr.2))
        else if c3 = cbr then some ([(k, v)], cs6)
        else none := by
  rw [parsePairs]
  unfold encPair
  rw [skipWs_cons_not _ _ (by decide)]
  dsimp only
  rw [if_pos rfl, parse_escBody]
  dsimp only
  rw [skipWs_cons_not _ _ (by decide)]
  dsimp only
  rw [if_pos rfl, skipWs_cons_ws _ _ (by decide), skipWs_cons_not _ _ (by decide)]
  dsimp only
  rw [if_pos rfl, parse_escBody]

theorem parsePairs_pair_comma (f : Nat) (k v : String) (rest : List Char) :
    parsePairs (f + 1) (encPair k v (',' :: '\n' :: ' ' :: ' ' :: ' ' :: ' ' :: rest)) =
      (parsePairs f rest).map (fun pr => ((k, v) :: pr.1, pr.2)) := by
  rw [parsePairs_encPair]
  rw [skipWs_cons_not _ _ (by decide)]
  dsimp only
  rw [if_pos rfl]
  rw [parsePairs_cons_ws _ _ _ (by decide), parsePairs_cons_ws _ _ _ (by decide),
      parsePairs_cons_ws _ _ _ (by decide), parsePairs_cons_ws _ _ _ (by decide),
      parsePairs_cons_ws _ _ _ (by decide)]

theorem parsePairs_pair_last (f : Nat) (k v : String) (tail : List Char) :
    parsePairs (f + 1) (encPair k v ('\n' :: ' ' :: ' ' :: cbr :: tail)) =
      some ([(k, v)], tail) := by
  rw [parsePairs_encPair]
  rw [skipWs_cons_ws _ _ (by decide), skipWs_cons_ws _ _ (by decide),
      skipWs_cons_ws _ _ (by decide), skipWs_cons_not _ _ (by decide)]
  dsimp only
  rw [if_neg (by decide), if_pos rfl]

theorem skipWs_encPair (k v : String) (tail : List Char) :
    skipWs (encPair k v tail) = encPair k v tail := by
  unfold encPair
  rw [skipWs_cons_not _ _ (by decide)]

theorem headIs_cbr_encPair (k v : String) (t : List Char) :
    headIs cbr (encPair k v t) = false := by
  unfold encPair headIs
  dsimp only
  decide

theorem parseObjTail_recInner (f : Nat) (e : ArchivedEssay) (tail : List Char) :
    parseObjTail (f + 9) (recInner e tail) = some (pairs9 e, tail) := by
  unfold parseObjTail
  rw [show skipWs (recInner e tail) =
      encPair "title" e.title (',' :: '\n' :: ' ' :: ' ' :: ' ' :: ' ' ::
      encPair "author" e.author (',' :: '\n' :: ' ' :: ' ' :: ' ' :: ' ' ::
      encPair "body" e.body (',' :: '\n' :: ' ' :: ' ' :: ' ' :: ' ' ::
      encPair "date" e.date (',' :: '\n' :: ' ' :: ' ' :: ' ' :: ' ' ::
      encPair "hash" e.hash (',' :: '\n' :: ' ' :: ' ' :: ' ' :: ' ' ::
      encPair "translation" e.translation (',' :: '\n' :: ' ' :: ' ' :: ' ' :: ' ' ::
      encPair "summary" e.summary (',' :: '\n' :: ' ' :: ' ' :: ' ' :: ' ' ::
      encPair "translated_title" e.translated_title (',' :: '\n' :: ' ' :: ' ' :: ' ' :: ' ' ::
      encPair "translated_author" e.translated_author ('\n' :: ' ' :: ' ' :: cbr :: tail))))))))) from by
    unfold recInner
    rw [skipWs_cons_ws _ _ (by decide), skipWs_cons_ws _ _ (by decide),
        skipWs_cons_ws _ _ (by decide), skipWs_cons_ws _ _ (by decide),
        skipWs_cons_ws _ _ (by decide), skipWs_encPair]]
  rw [headIs_cbr_encPair]
  rw [if_neg (by decide : ¬false = true)]
  unfold recInner
  rw [parsePairs_cons_ws _ _ _ (by decide), parsePairs_cons_ws _ _ _ (by decide),
      parsePairs_cons_ws _ _ _ (by decide), parsePairs_cons_ws _ _ _ (by decide),
      parsePairs_cons_ws _ _ _ (by decide)]
  rw [show f + 9 = (f + 8) + 1 from rfl, parsePairs_pair_comma]
  rw [show f + 8 = (f + 7) + 1 from rfl, parsePairs_pair_comma]
  rw [show f + 7 = (f + 6) + 1 from rfl, parsePairs_pair_comma]
  rw [show f + 6 = (f + 5) + 1 from rfl, parsePairs_pair_comma]
  rw [show f + 5 = (f + 4) + 1 from rfl, parsePairs_pair_comma]
  rw [show f + 4 = (f + 3) + 1 from rfl, parsePairs_pair_comma]
  rw [show f + 3 = (f + 2) + 1 from rfl, parsePairs_pair_comma]
  rw [show f + 2 = (f + 1) + 1 from rfl, parsePairs_pair_comma]
  rw [parsePairs_pair_last]
  rfl

theorem skipWs_encodeRecord (e : ArchivedEssay) (tail : List Char) :
    skipWs (encodeRecord e tail) = encodeRecord e tail := by
  unfold encodeRecord
  rw [skipWs_cons_not _ _ (by decide)]

/-- A whitespace-prefixed printed record parses to its nine pairs. -/
theorem parseObject_ws_record (fP : Nat) (e : ArchivedEssay) (tail : List Char) :
    parseObject (fP + 9) ('\n' :: ' ' :: ' ' :: encodeRecord e tail) =
      some (pairs9 e, tail) := by
  unfold parseObject
  rw [skipWs_cons_ws _ _ (by decide), skipWs_cons_ws _ _ (by decide),
      skipWs_cons_ws _ _ (by decide), skipWs_encodeRecord]
  unfold encodeRecord
  dsimp only
  rw [if_pos rfl]
  exact parseObjTail_recInner fP e tail

/-- The printed record sequence parses back, item by item. -/
theorem parseItems_chain : ∀ (es : List ArchivedEssay) (e : ArchivedEssay)
    (fI fP : Nat) (rest : List Char),
    parseItems ((e :: es).length + fI) (fP + 9)
        ('\n' :: ' ' :: ' ' :: encItems (e :: es) ('\n' :: ']' :: rest)) =
      some ((e :: es).map pairs9, rest)
  | [], e, fI, fP, rest => by
    rw [show ([e] : List ArchivedEssay).length + fI = fI + 1 from by simp [Nat.add_comm]]
    rw [parseItems]
    rw [show encItems [e] ('\n' :: ']' :: rest) = encodeRecord e ('\n' :: ']' :: rest) from rfl]
    rw [parseObject_ws_record]
    dsimp only
    rw [skipWs_cons_ws _ _ (by decide), skipWs_cons_not _ _ (by decide)]
    dsimp only
    rw [if_neg (by decide), if_pos rfl]
    rfl
  | e' :: es, e, fI, fP, rest => by
    have IH := parseItems_chain es e' fI fP rest
    rw [show (e :: e' :: es).length + fI = ((e' :: es).length + fI) + 1 from by
      simp
      omega]
    rw [parseItems]
    rw [show encItems (e :: e' :: es) ('\n' :: ']' :: rest) =
        encodeRecord e (',' :: '\n' :: ' ' :: ' ' ::
          encItems (e' :: es) ('\n' :: ']' :: rest)) from rfl]
    rw [parseObject_ws_record]
    dsimp only
    rw [skipWs_cons_not _ _ (by decide)]
    dsimp only
    rw [if_pos rfl, IH]
    rfl

theorem decode_pairs9 (e : ArchivedEssay) : decodeRecord (pairs9 e) = some e := rfl

theorem mapM_decode : ∀ es : List ArchivedEssay,
    (es.map pairs9).mapM decodeRecord = some es
  | [] => rfl
  | e :: es => by
    rw [List.map_cons, List.mapM_cons, decode_pairs9, mapM_decode es]
    rfl

/-- Lower bound on the printed record length. -/
theorem encodeRecord_len (e : ArchivedEssay) (tail : List Char) :
    tail.length + 20 ≤ (encodeRecord e tail).length := by
  unfold encodeRecord recInner encPair
  simp [List.length_append]
  omega

theorem encItems_len : ∀ (es : List ArchivedEssay) (e : ArchivedEssay) (tail : List Char),
    (e :: es).length + tail.length + 19 ≤ (encItems (e :: es) tail).length
  | [], e, tail => by
    have := encodeRecord_len e tail
    rw [show encItems [e] tail = encodeRecord e tail from rfl]
    simp at this ⊢
    omega
  | e' :: es, e, tail => by
    have IH := encItems_len es e' tail
    rw [show encItems (e :: e' :: es) tail =
        encodeRecord e (',' :: '\n' :: ' ' :: ' ' :: encItems (e' :: es) tail) from rfl]
    have hrec := encodeRecord_len e (',' :: '\n' :: ' ' :: ' ' :: encItems (e' :: es) tail)
    simp at IH hrec ⊢
    omega

theorem encItems_cons_eq (e : ArchivedEssay) (es : List ArchivedEssay) (t : List Char) :
    encItems (e :: es) t = encodeRecord e
      (match es with
       | [] => t
       | _ :: _ => ',' :: '\n' :: ' ' :: ' ' :: encItems es t) := by
  cases es <;> rfl

theorem parseItems_chain' (es : List ArchivedEssay) (e : ArchivedEssay)
    (fI fP : Nat) (rest : List Char)
    (hI : (e :: es).length ≤ fI) (hP : 9 ≤ fP) :
    parseItems fI fP ('\n' :: ' ' :: ' ' :: encItems (e :: es) ('\n' :: ']' :: rest)) =
      some ((e :: es).map pairs9, rest) := by
  obtain ⟨a, rfl⟩ : ∃ a, fI = (e :: es).length + a := ⟨fI - (e :: es).length, by omega⟩
  obtain ⟨b, rfl⟩ : ∃ b, fP = b + 9 := ⟨fP - 9, by omega⟩
  exact parseItems_chain es e a b rest

/-- C9 core: saving then loading an archive is the identity. -/
theorem loadArchive_saveArchive : ∀ es : List ArchivedEssay,
    loadArchive (saveArchive es) = some es
  | [] => by decide
  | e :: es => by
    unfold saveArchive loadArchive
    dsimp only
    have hlen : (e :: es).length + 21 ≤
        ('[' :: '\n' :: ' ' :: ' ' :: encItems (e :: es) ('\n' :: ']' :: [])).length := by
      have := encItems_len es e ('\n' :: ']' :: [])
      simp at this ⊢
      omega
    have hhead : headIs ']'
        (skipWs ('\n' :: ' ' :: ' ' :: encItems (e :: es) ('\n' :: ']' :: []))) = false := by
      rw [skipWs_cons_ws _ _ (by decide), skipWs_cons_ws _ _ (by decide),
          skipWs_cons_ws _ _ (by decide), encItems_cons_eq, skipWs_encodeRecord]
      unfold encodeRecord headIs
      dsimp only
      decide
    unfold parseArr
    rw [skipWs_cons_not _ _ (by decide)]
    dsimp only
    rw [if_pos rfl, hhead]
    rw [if_neg (by decide : ¬false = true)]
    rw [parseItems_chain' es e _ _ [] (by simp at hlen ⊢; omega) (by simp at hlen ⊢; omega)]
    dsimp only
    rw [if_pos (by decide)]
    exact mapM_decode (e :: es)

/-! ## Claims -/

/-- C1: extraction applies the targeted-selector strategy first and the
heuristic-section strategy second; whenever strategy 1 yields a falsy body
and strategy 2 returns a section body meeting the 200-character threshold,
`scrape_essay` returns (no exception, total function) exactly the record
built from the heuristic strategy's output. -/
theorem claim_extraction_fallback_order (s : Soup) (d n : String) (b : String)
    (t' : Option String)
    (h1 : pyFalsy (strat1Body s) = true)
    (h2 : strat2Loop (titleStrat s) s.sections = (some b, t'))
    (h3 : 200 ≤ b.length) :
    scrape_essay s d n = some
      { title := pyOrS t' (defaultTitle d)
        author := pyOrS (authorStrat s) defaultAuthor
        body := cleanBody b
        date := n
        hash := fingerprint (cleanBody b) } := by
  have hraw : extractRaw s = (some b, t') := by
    unfold extractRaw
    rw [h1]
    simpa using h2
  have hne : b.data ≠ [] := by
    intro hd
    have : b.length = 0 := by simp [String.length, hd]
    omega
  unfold scrape_essay
  rw [hraw]
  have hfal : pyFalsy (some b, t').1 = false := by
    simp [pyFalsy, List.isEmpty_iff, hne]
  rw [hfal]
  simp only [Bool.false_or]
  rw [decide_eq_false (by simp; omega)]
  simp

/-- C1 witness: a concrete snapshot where strategy 1 finds nothing and the
heuristic section qualifies; the hypotheses hold and the conclusion follows
by the theorem. -/
theorem claim_extraction_fallback_order_witness :
    pyFalsy (strat1Body soupFallback) = true ∧
    strat2Loop (titleStrat soupFallback) soupFallback.sections =
      (some (bodyN 200), some "H") ∧
    200 ≤ (bodyN 200).length ∧
    scrape_essay soupFallback "d" "n" = some
      { title := pyOrS (some "H") (defaultTitle "d")
        author := pyOrS (authorStrat soupFallback) defaultAuthor
        body := cleanBody (bodyN 200)
        date := "n"
        hash := fingerprint (cleanBody (bodyN 200)) } :=
  ⟨by decide, by decide, by decide,
    claim_extraction_fallback_order soupFallback "d" "n" (bodyN 200) (some "H")
      (by decide) (by decide) (by decide)⟩

/-- C3: when the scraped record's fingerprint is already present among the
archived fingerprints, the run makes no translation or summarization call,
saves nothing and regenerates no feed. -/
theorem claim_duplicate_early_exit (essay : Essay) (archive : List ArchivedEssay)
    (translate : String → Bool → String) (summarize : String → String)
    (feedNow : String)
    (h : archive.any (fun e => e.hash == essay.hash) = true) :
    mainRun (some essay) archive translate summarize feedNow = noRun := by
  unfold mainRun
  dsimp only
  rw [h]
  rfl

/-- C3 witness: a concrete archive already containing the essay's
fingerprint. -/
theorem claim_duplicate_early_exit_witness :
    (([sampleShortA] : List ArchivedEssay).any
      (fun e => e.hash == ("aaaaaaaaaaaa" : String)) = true) ∧
    mainRun (some { title := "t2", author := "a2", body := "b2", date := "d2"
                    hash := "aaaaaaaaaaaa" })
      [sampleShortA] (fun s _ => s) (fun s => s) "u" = noRun :=
  ⟨by decide,
    claim_duplicate_early_exit _ [sampleShortA] (fun s _ => s) (fun s => s) "u"
      (by decide)⟩

/-- C4: extraction returns `none` exactly when the raw strategy body is
absent or shorter than 200 characters; a 150-character candidate is
rejected, a 200-character candidate is accepted; and an aborted extraction
leads to a run with no archive mutation and no feed regeneration. -/
theorem claim_minimum_length_boundary :
    (∀ (s : Soup) (d n : String),
      scrape_essay s d n = none ↔
        (extractRaw s).1 = none ∨ ((extractRaw s).1.getD "").length < 200) ∧
    scrape_essay (soupOfBody (bodyN 150)) "d" "n" = none ∧
    (scrape_essay (soupOfBody (bodyN 200)) "d" "n").isSome = true ∧
    (∀ (archive : List ArchivedEssay) (translate : String → Bool → String)
       (summarize : String → String) (feedNow : String),
      mainRun none archive translate summarize feedNow = noRun) :=
  ⟨scrape_eq_none_iff, by decide, by decide, fun _ _ _ _ => rfl⟩

/-- C5: the fingerprint is a 12-character lowercase-hex prefix of the MD5
digest of the canonical body, computed from the body alone: recomputation
is stable, and any two scrapes with equal canonical bodies (titles and
authors free) carry equal fingerprints. -/
theorem claim_fingerprint_stability :
    (∀ b : String, fingerprint b = fingerprint b ∧ (fingerprint b).length = 12 ∧
      ∀ c ∈ (fingerprint b).data, c ∈ hexChars) ∧
    (∀ (s1 s2 : Soup) (d1 n1 d2 n2 : String),
      (scrape_essay s1 d1 n1).map Essay.body = (scrape_essay s2 d2 n2).map Essay.body →
      (scrape_essay s1 d1 n1).map Essay.hash = (scrape_essay s2 d2 n2).map Essay.hash) := by
  refine ⟨fun b => ⟨rfl, fingerprint_length b, fingerprint_hex b⟩, ?_⟩
  intro s1 s2 d1 n1 d2 n2 h
  rw [scrape_map_hash, scrape_map_hash, h]

/-- C5 witness: two snapshots with different titles and the same body
produce the same fingerprint; and a concrete fingerprint character is a
hex digit. -/
theorem claim_fingerprint_stability_witness :
    ((scrape_essay (soupTitled "X" (bodyN 200)) "d" "n").map Essay.body =
      (scrape_essay (soupTitled "Y" (bodyN 200)) "d" "n").map Essay.body ∧
     'd' ∈ (fingerprint "").data) ∧
    ((scrape_essay (soupTitled "X" (bodyN 200)) "d" "n").map Essay.hash =
      (scrape_essay (soupTitled "Y" (bodyN 200)) "d" "n").map Essay.hash ∧
     'd' ∈ hexChars) :=
  ⟨⟨by decide, by decide⟩,
    claim_fingerprint_stability.2 _ _ "d" "n" "d" "n" (by decide),
    (claim_fingerprint_stability.1 "").2.2 'd' (by decide)⟩

/-- C6: normalization yields exactly the first-occurrence dedup of the
cleaned non-empty paragraphs: a sublist of them (relative order
preserved), without duplicates, containing every cleaned non-empty
paragraph, and no empty paragraph. -/
theorem claim_paragraph_dedup (body : String) :
    cleanedParas body = dedupFirst (cleanedNonEmpty body) ∧
    (cleanedParas body).Sublist (cleanedNonEmpty body) ∧
    (cleanedParas body).Nodup ∧
    (∀ p : String, p ∈ cleanedParas body ↔ p ∈ cleanedNonEmpty body) ∧
    (cleanedParas body).all (fun p => !p.data.isEmpty) = true := by
  have he := cleanedParas_eq body
  refine ⟨he, ?_, ?_, ?_, ?_⟩
  · rw [he]
    exact dedupFirstAux_sublist _ _
  · rw [he]
    exact dedupFirstAux_nodup _ _
  · intro p
    rw [he]
    unfold dedupFirst
    rw [dedupFirstAux_mem]
    simp
  · rw [List.all_eq_true]
    intro p hp
    have : p ∈ cleanedNonEmpty body := by
      rw [he] at hp
      unfold dedupFirst at hp
      exact ((dedupFirstAux_mem p _ _).mp hp).1
    exact (List.mem_filter.mp this).2

/-- C7: the built feed's entry sequence is exactly the archive's first
`min 30 length` records in archive (newest-first) order, entry `i` built
from record `i`. -/
theorem claim_bounded_feed_window (archive : List ArchivedEssay) :
    (generateEntries archive).length = min 30 archive.length ∧
    ∀ i : Nat, i < 30 →
      (generateEntries archive).get? i = (archive.get? i).map mkEntry := by
  have hge : generateEntries archive = (archive.take 30).map mkEntry := by
    unfold generateEntries
    rw [addEntriesLoop_eq]
    simp
  constructor
  · rw [hge]
    simp [List.length_take]
  · intro i hi
    rw [hge, List.get?_map, List.get?_take hi]

/-- C7 witness: with an archive of 45 records the feed holds exactly the
30 most recent, and entry 0 comes from record 0. -/
theorem claim_bounded_feed_window_witness :
    arch45.length = 45 ∧ (0 : Nat) < 30 ∧
    (generateEntries arch45).length = 30 ∧
    (generateEntries arch45).get? 0 = (arch45.get? 0).map mkEntry :=
  ⟨by decide, by decide,
    by
      have h := (claim_bounded_feed_window arch45).1
      simpa [arch45] using h,
    (claim_bounded_feed_window arch45).2 0 (by decide)⟩

/-- C8: a successful run preserves the archive invariants: assuming the
loaded archive has pairwise-distinct fingerprints, the saved archive is
the old archive with exactly one record prepended at the head (no record
removed or mutated) and its fingerprints remain pairwise distinct. -/
theorem claim_archive_invariants (scraped : Option Essay)
    (archive : List ArchivedEssay) (translate : String → Bool → String)
    (summarize : String → String) (feedNow : String) (a' : List ArchivedEssay)
    (hnd : (archive.map ArchivedEssay.hash).Nodup)
    (hs : (mainRun scraped archive translate summarize feedNow).saved = some a') :
    (∃ r, a' = r :: archive) ∧ (a'.map ArchivedEssay.hash).Nodup := by
  cases scraped with
  | none => exact Option.noConfusion hs
  | some essay =>
    unfold mainRun at hs
    dsimp only at hs
    split at hs
    · exact Option.noConfusion hs
    next hany =>
      simp only [Option.some.injEq] at hs
      subst hs
      refine ⟨⟨_, rfl⟩, ?_⟩
      simp only [List.map_cons]
      refine List.Nodup.cons ?_ hnd
      intro hmem
      obtain ⟨e, he, heq⟩ := List.mem_map.mp hmem
      have hh : (enrichedOf essay translate summarize).hash = essay.hash := rfl
      rw [hh] at heq
      have hany' : (archive.any fun e => e.hash == essay.hash) = false :=
        Bool.not_eq_true _ |>.mp hany
      have hfalse := List.any_eq_false.mp hany' e he
      rw [beq_iff_eq] at hfalse
      exact hfalse heq

/-- C8 witness: a successful run on an empty archive prepends one record
and keeps fingerprints distinct. -/
theorem claim_archive_invariants_witness :
    (([] : List ArchivedEssay).map ArchivedEssay.hash).Nodup ∧
    (mainRun (some { title := "t", author := "a", body := "b", date := "d", hash := "h" })
        [] (fun s _ => s) (fun s => s) "u").saved =
      some [{ title := "t", author := "a", body := "b", date := "d", hash := "h"
              translation := "b", summary := "b", translated_title := "t"
              translated_author := "a" }] ∧
    ((∃ r, [{ title := "t", author := "a", body := "b", date := "d", hash := "h"
              translation := "b", summary := "b", translated_title := "t"
              translated_author := "a" }] = r :: ([] : List ArchivedEssay)) ∧
      ([{ title := "t", author := "a", body := "b", date := "d", hash := "h"
          translation := "b", summary := "b", translated_title := "t"
          translated_author := "a" }].map ArchivedEssay.hash).Nodup) :=
  ⟨by decide, by decide,
    claim_archive_invariants
      (some { title := "t", author := "a", body := "b", date := "d", hash := "h" })
      [] (fun s _ => s) (fun s => s) "u" _ (by decide) (by decide)⟩

/-- C10: the 200-character minimum applies to the raw extracted body before
footer stripping and dedup: a 200-character footer-only paragraph passes
the gate, the archived canonical body is empty, and that empty body is
what is fingerprinted and archived. -/
theorem claim_minlen_before_cleaning :
    strat1Body (soupOfBody footerPara) = some footerPara ∧
    footerPara.length = 200 ∧
    (scrape_essay (soupOfBody footerPara) "d" "n").map Essay.body = some "" ∧
    (scrape_essay (soupOfBody footerPara) "d" "n").map Essay.hash =
      some (fingerprint "") ∧
    ((mainRun (scrape_essay (soupOfBody footerPara) "d" "n") []
        (fun s _ => s) (fun s => s) "u").saved).map (List.map ArchivedEssay.body) =
      some [""] :=
  ⟨by decide, by decide, by decide, by decide, by decide⟩

/-- C2 counterexample: on a window whose single entry carries a
1200-character translation, the thumbnail inserted by the first
application lies beyond the 1500-character presence-check window, so the
second application of the post-processor inserts a duplicate and the
result is not byte-identical. -/
theorem claim_postprocessor_idempotence_cex :
    postProcess (postProcess (atomSerialize longWindow feedTs) longWindow) longWindow ≠
      postProcess (atomSerialize longWindow feedTs) longWindow :=
  lenStr_ne (by decide)

/-- C2 amended: the namespace, title-type and header rewrites are
presence-guarded and the reordering is a projection, so double application
is byte-identical whenever every entry's thumbnail lies within the
1500-character presence-check window after its entry id — as for windows
of short entries, verified here on a two-short-entry window and on the
empty window. -/
theorem claim_postprocessor_idempotent_short :
    postProcess (postProcess (atomSerialize shortWindow feedTs) shortWindow) shortWindow =
      postProcess (atomSerialize shortWindow feedTs) shortWindow ∧
    postProcess (postProcess (atomSerialize [] feedTs) []) [] =
      postProcess (atomSerialize [] feedTs) [] :=
  ⟨eqStr_sound (by decide), eqStr_sound (by decide)⟩


/-- C9: saving the archive and then loading it yields records identical to
the originals in every stored field, for every archive (arbitrary unicode
string fields, non-Latin scripts included). -/
theorem claim_roundtrip_persistence :
    (∀ es : List ArchivedEssay, loadArchive (saveArchive es) = some es) ∧
    loadArchive (saveArchive [jpRec]) = some [jpRec] :=
  ⟨loadArchive_saveArchive, loadArchive_saveArchive [jpRec]⟩

end Itoi
